import Mathlib

/-!
Shallow embedding of `src/get-repos.py`, a resumable paginated GitHub
repository scraper.  Python scalar values that appear as repository
attributes or CSV cells are modelled by `Value`; a repository object is
modelled by its list of available attributes; the CSV store is a list of
lines; exceptions are modelled with `Except`.
-/

/-- A scalar Python value as it appears in repository attributes and CSV cells. -/
inductive Value
  | vInt (n : Int)
  | vStr (s : String)
  | vBool (b : Bool)
deriving DecidableEq

/-- A repository object, seen through `getattr`/`hasattr`: the list of the
attributes it actually has, with their values. -/
abbrev Repo := List (String × Value)

/-- Dictionary lookup: the first binding of the key, if any. -/
def dictGet (d : List (String × Value)) (k : String) : Option Value :=
  (d.find? (fun kv => kv.1 == k)).map (fun kv => kv.2)

/-- `getattr(repo, p)` when the attribute is present; `none` models
`hasattr(repo, p) == False` (accessing it would raise `AttributeError`). -/
def pyGetattr (r : Repo) (p : String) : Option Value := dictGet r p

/-- Python truthiness of a scalar value. -/
def pyTruthy : Value → Bool
  | Value.vBool b => b
  | Value.vInt n => n != 0
  | Value.vStr s => s != ""

/-- Python `str()` of a scalar value. -/
def pyStr : Value → String
  | Value.vStr s => s
  | Value.vInt n => toString n
  | Value.vBool b => if b then "True" else "False"

/-- Decimal digit value of a character, if it is a digit. -/
def digitVal (c : Char) : Option Nat :=
  if c.isDigit then some (c.toNat - 48) else none

/-- Accumulate decimal digits; any non-digit poisons the parse. -/
def digitsToNat : List Char → Option Nat → Option Nat
  | [], acc => acc
  | c :: cs, acc =>
      match acc, digitVal c with
      | some n, some d => digitsToNat cs (some (10 * n + d))
      | _, _ => digitsToNat cs none

/-- A non-empty all-digit sequence, as a number. -/
def parseDigits (cs : List Char) : Option Nat :=
  match cs with
  | [] => none
  | _ => digitsToNat cs (some 0)

/-- Python `int(s)` on a string: an optional sign followed by decimal
digits (surrounding-whitespace and underscore handling omitted);
`none` models the `ValueError` raised otherwise. -/
def pyStrToInt (s : String) : Option Int :=
  match s.toList with
  | '-' :: cs => (parseDigits cs).map (fun n => -(n : Int))
  | '+' :: cs => (parseDigits cs).map (fun n => (n : Int))
  | cs => (parseDigits cs).map (fun n => (n : Int))

/-- Python `int(v)`: succeeds on ints and bools and on integer-shaped
strings; `none` models the `ValueError`/`TypeError` raised otherwise. -/
def pyInt : Value → Option Int
  | Value.vInt n => some n
  | Value.vBool b => some (if b then 1 else 0)
  | Value.vStr s => pyStrToInt s

/-- `PROPERTIES` (src/get-repos.py:35-121): the recognized attribute names
projected into each CSV record, in source order. -/
def PROPERTIES : List String :=
  ["allow_auto_merge", "allow_forking", "allow_merge_commit",
   "allow_rebase_merge", "allow_squash_merge", "allow_update_branch",
   "archived", "archive_url", "blobs_url", "branches_url", "clone_url",
   "collaborators_url", "comments_url", "commits_url", "compare_url",
   "contents_url", "contributors_url", "created_at", "default_branch",
   "delete_branch_on_merge", "deployments_url", "description",
   "downloads_url", "events_url", "fork", "forks", "forks_count",
   "forks_url", "full_name", "git_commits_url", "git_refs_url",
   "git_tags_url", "git_url", "has_downloads", "has_issues", "has_pages",
   "has_projects", "has_wiki", "homepage", "hooks_url", "html_url", "id",
   "issue_comment_url", "issue_events_url", "issues_url", "keys_url",
   "labels_url", "language", "languages_url", "master_branch",
   "merges_url", "milestones_url", "mirror_url", "name", "network_count",
   "notifications_url", "open_issues", "open_issues_count", "organization",
   "owner", "parent", "permissions", "private", "pulls_url", "pushed_at",
   "releases_url", "size", "source", "ssh_url", "stargazers_count",
   "stargazers_url", "statuses_url", "subscribers_url",
   "subscribers_count", "subscription_url", "svn_url", "tags_url",
   "teams_url", "topics", "trees_url", "updated_at", "url", "visibility",
   "watchers", "watchers_count"]

/-- `is_repo_we_care_about` (src/get-repos.py:140-144):
`repo.public and repo.language == "C" and not repo.fork`.
`none` models the `AttributeError` raised when an accessed attribute is
missing; Python's `and` short-circuits, so later attributes are not read
once an earlier conjunct is falsy. -/
def is_repo_we_care_about (repo : Repo) : Option Bool :=
  match pyGetattr repo "public" with
  | none => none
  | some p =>
    if !pyTruthy p then some false
    else
      match pyGetattr repo "language" with
      | none => none
      | some l =>
        if l = Value.vStr "C" then
          match pyGetattr repo "fork" with
          | none => none
          | some f => some (!pyTruthy f)
        else some false

/-- One line of the CSV store: the header row, or a data row holding the
projected attribute dictionary of one repository (absent keys model the
empty cells pandas writes for missing properties). -/
inductive Line
  | header
  | row (d : List (String × Value))
deriving DecidableEq

/-- The durable store: the lines of the CSV file, in order.  The empty
list is a zero-byte file (`f.tell() == 0` right after opening in append
mode). -/
abbrev CsvFile := List Line

/-- The projection step (src/get-repos.py:157-160): copy into `repo_dict`
every recognized property the entity actually has. -/
def project (repo : Repo) : List (String × Value) :=
  PROPERTIES.filterMap (fun p => (pyGetattr repo p).map (fun v => (p, v)))

/-- A `GithubException` raised while handling one entity.
`dataHasMessageAttr` models `hasattr(e.data, "message")` at
src/get-repos.py:172; for PyGithub the payload `e.data` is a plain dict,
which has no `message` attribute, so there this flag is false. -/
inductive GhErr
  | rateLimited
  | generic (dataHasMessageAttr : Bool) (message : String)
deriving DecidableEq

/-- One event observed while lazily iterating a page of repositories:
an entity whose processing raises nothing, an entity whose processing
raises a `GithubException`, or a `RateLimitExceededException` raised by
the iteration itself. -/
inductive PageItem
  | entity (r : Repo)
  | entityErr (r : Repo) (e : GhErr)
  | rateLimitHit
deriving DecidableEq

/-- The exceptions that can escape the embedded fragments. -/
inductive Exc
  | rateLimitExceeded
  | attributeError
  | valueError
  | emptyDataError
deriving DecidableEq

/-- `df.to_csv(f, header=f.tell() == 0, index=False)`
(src/get-repos.py:166-167): append one data row, preceded by the header
row exactly when the file is empty at this moment. -/
def appendRow (file : CsvFile) (d : List (String × Value)) : CsvFile :=
  file ++ (if file.isEmpty then [Line.header] else []) ++ [Line.row d]

/-- The error line logged for a skipped entity (src/get-repos.py:173-177). -/
def errMessage (nameVal : Value) (msg : String) : String :=
  "[+] " ++ pyStr nameVal ++ ": " ++ msg ++ " skipping."

/-- The body of `save_repos_to_file` (src/get-repos.py:151-183), threading
the store and the error log through the page iteration.  Per item:
an `entity` is printed (reading `repo.name`, `AttributeError` if absent),
projected, dropped via `continue` when `int(repo_dict["id"])` raises
(missing key or unparseable value), and otherwise appended with
`to_csv`; an `entityErr` carrying `RateLimitExceededException` is
re-raised by the inner and outer handlers; a generic `GithubException`
logs `errMessage` only when `hasattr(e.data, "message")` holds (reading
`repo.name` for the message) and then `continue`s; a `rateLimitHit`
raised by the iteration propagates through the outer handler. -/
def processItems : CsvFile → List String → List PageItem →
    CsvFile × List String × Except Exc Unit
  | file, log, [] => (file, log, Except.ok ())
  | file, log, PageItem.rateLimitHit :: _ =>
      (file, log, Except.error Exc.rateLimitExceeded)
  | file, log, PageItem.entityErr _ GhErr.rateLimited :: _ =>
      (file, log, Except.error Exc.rateLimitExceeded)
  | file, log, PageItem.entityErr r (GhErr.generic hasMsg msg) :: rest =>
      if hasMsg then
        match pyGetattr r "name" with
        | none => (file, log, Except.error Exc.attributeError)
        | some nv => processItems file (log ++ [errMessage nv msg]) rest
      else processItems file log rest
  | file, log, PageItem.entity r :: rest =>
      match pyGetattr r "name" with
      | none => (file, log, Except.error Exc.attributeError)
      | some _ =>
        match (dictGet (project r) "id").bind pyInt with
        | none => processItems file log rest
        | some _ => processItems (appendRow file (project r)) log rest

/-- `save_repos_to_file` (src/get-repos.py:147-183): the store file stands
for the opened append handle; the log starts empty for this call.  Returns
the final file, the log lines written, and the outcome (`ok` on normal
completion, `error` for a propagated exception). -/
def save_repos_to_file (file : CsvFile) (repos : List PageItem) :
    CsvFile × List String × Except Exc Unit :=
  processItems file [] repos

/-- `time.sleep(t)`: a no-op for a non-negative duration, `ValueError`
("sleep length must be non-negative") for a negative one. -/
def time_sleep (t : Int) : Except Exc Unit :=
  if t < 0 then Except.error Exc.valueError else Except.ok ()

/-- The backoff computation (src/get-repos.py:200):
`sleep_time = reset_timestamp - calendar.timegm(time.gmtime()) + 5`. -/
def backoff_sleep_seconds (reset now : Int) : Int :=
  reset - now + 5

/-- `get_max_id` (src/get-repos.py:124-137) applied to the `id` column:
`df.id.max()` skips missing entries and is NaN on an empty or all-NA
column, in which case `NotSet` (here `none`) is returned.  (The
`ValueError` re-raise path cannot trigger for an `Int64` column.) -/
def get_max_id (ids : List (Option Int)) : Option Int :=
  match ids.filterMap id with
  | [] => none
  | x :: xs => some (xs.foldl max x)

/-- The `id` column of the parsed CSV: one entry per data row, `none` for
an empty cell (pandas `NA` under `Int64Dtype`); a cell that cannot be cast
to an integer raises `ValueError`. -/
def readIdColumn : CsvFile → Except Exc (List (Option Int))
  | [] => Except.ok []
  | Line.header :: rest => readIdColumn rest
  | Line.row d :: rest =>
      match dictGet d "id" with
      | none => (readIdColumn rest).map (fun l => none :: l)
      | some v =>
        match pyInt v with
        | none => Except.error Exc.valueError
        | some n => (readIdColumn rest).map (fun l => some n :: l)

/-- `pd.read_csv(filename, usecols=["id"], dtype=Int64)`
(src/get-repos.py:207-209 and 262): raises `EmptyDataError` ("No columns
to parse from file") on a zero-byte file, else yields the `id` column. -/
def read_csv_ids (file : CsvFile) : Except Exc (List (Option Int)) :=
  match file with
  | [] => Except.error Exc.emptyDataError
  | _ => readIdColumn file

/-- The cursor recomputation done after every cycle
(src/get-repos.py:206-210): `read_csv` followed by `get_max_id`. -/
def recompute_cursor (file : CsvFile) : Except Exc (Option Int) :=
  (read_csv_ids file).map get_max_id

/-- The outcome of one invocation of `get_repos_with_backoff`:
it raises, or it performs the tail recursive call
(src/get-repos.py:211-213) with the next state, or — a case the source
never produces — it returns normally. -/
inductive CycleOutcome
  | finished
  | raised (e : Exc)
  | resume (file : CsvFile) (log : List String) (since : Option Int)
deriving DecidableEq

/-- Shared tail of `get_repos_with_backoff` (src/get-repos.py:206-213):
recompute the cursor from the store and recurse with it. -/
def recomputeAndResume (f : CsvFile) (l : List String) : CycleOutcome :=
  match read_csv_ids f with
  | Except.error e => CycleOutcome.raised e
  | Except.ok ids => CycleOutcome.resume f l (get_max_id ids)

/-- What `get_repos_with_backoff` does after `save_repos_to_file` returns
(src/get-repos.py:192-213): on normal completion, recompute and recurse;
on `RateLimitExceededException`, sleep `backoff_sleep_seconds` and then
recompute and recurse; any other exception propagates to the caller. -/
def finishCycle (res : CsvFile × List String × Except Exc Unit)
    (reset now : Int) : CycleOutcome :=
  match res with
  | (f, l, Except.ok _) => recomputeAndResume f l
  | (f, l, Except.error Exc.rateLimitExceeded) =>
      match time_sleep (backoff_sleep_seconds reset now) with
      | Except.error e => CycleOutcome.raised e
      | Except.ok _ => recomputeAndResume f l
  | (_, _, Except.error e) => CycleOutcome.raised e

/-- One invocation of `get_repos_with_backoff` (src/get-repos.py:186-213)
on a store `file`, observing page events `items`; `reset` and `now` are
the rate-limit reset timestamp and the current time consulted on
rate-limit exhaustion. -/
def get_repos_with_backoff_step (file : CsvFile) (items : List PageItem)
    (reset now : Int) : CycleOutcome :=
  finishCycle (save_repos_to_file file items) reset now

/-- The startup cursor computation in `__main__` (src/get-repos.py:259-263):
`last_id = 0`; the file is opened in append mode (creating it), and only
when `f.tell() != 0` is the store read and `get_max_id` taken. -/
def startup_last_id (file : CsvFile) : Except Exc (Option Int) :=
  if file.isEmpty then Except.ok (some 0)
  else (read_csv_ids file).map get_max_id

/-- A store whose data rows carry exactly the given identifiers. -/
def storeOf (ids : List Int) : CsvFile :=
  Line.header :: ids.map (fun n => Line.row [("id", Value.vInt n)])

/-- Number of header lines in the store. -/
def countHeaders : CsvFile → Nat
  | [] => 0
  | Line.header :: rest => countHeaders rest + 1
  | Line.row _ :: rest => countHeaders rest

/-- A run: the store threaded through successive `save_repos_to_file`
cycles (each cycle one page of events). -/
def runCycles : CsvFile → List (List PageItem) → CsvFile
  | file, [] => file
  | file, c :: cs => runCycles (processItems file [] c).1 cs

/-- A line whose `id` cell is present and parses as an integer (header
lines count as unproblematic). -/
def rowIdOkB : Line → Bool
  | Line.header => true
  | Line.row d => ((dictGet d "id").bind pyInt).isSome

/-- Sample entity: a plain C repository with integer id 1. -/
def repoA : Repo :=
  [("name", Value.vStr "alpha"), ("id", Value.vInt 1),
   ("public", Value.vBool true), ("language", Value.vStr "C"),
   ("fork", Value.vBool false)]

/-- Sample entity: a second well-formed repository, id 2. -/
def repoB : Repo :=
  [("name", Value.vStr "beta"), ("id", Value.vInt 2),
   ("public", Value.vBool true), ("language", Value.vStr "C"),
   ("fork", Value.vBool false)]

/-- Sample entity: a fork written in Python — it fails
`is_repo_we_care_about` — with integer id 42. -/
def repoFork : Repo :=
  [("name", Value.vStr "forked"), ("id", Value.vInt 42),
   ("public", Value.vBool true), ("language", Value.vStr "Python"),
   ("fork", Value.vBool true)]

/-- Sample entity: has a name but its id attribute is a non-numeric
string. -/
def repoBadId : Repo :=
  [("name", Value.vStr "bad"), ("id", Value.vStr "notanumber")]

/-- Sample entity: has a name but no id attribute at all. -/
def repoNoId : Repo :=
  [("name", Value.vStr "noid"), ("language", Value.vStr "C")]

/-! ### Helper lemmas -/

lemma appendRow_ne_nil (file : CsvFile) (d : List (String × Value)) :
    appendRow file d ≠ [] := by
  simp [appendRow]

lemma recomputeAndResume_raised (f : CsvFile) (l : List String) (e : Exc)
    (h : recomputeAndResume f l = CycleOutcome.raised e) :
    read_csv_ids f = Except.error e := by
  unfold recomputeAndResume at h
  cases hr : read_csv_ids f with
  | error e2 => rw [hr] at h; cases h; rfl
  | ok ids => rw [hr] at h; exact absurd h (by simp)

lemma readIdColumn_err (f : CsvFile) (e : Exc)
    (h : readIdColumn f = Except.error e) : e = Exc.valueError := by
  induction f with
  | nil => exact absurd h (by simp [readIdColumn])
  | cons line rest ih =>
    cases line with
    | header => exact ih (by simpa [readIdColumn] using h)
    | row d =>
      cases hd : dictGet d "id" with
      | none =>
        cases hr : readIdColumn rest with
        | error e2 =>
          simp only [readIdColumn, hd, hr, Except.map] at h
          cases h
          exact ih hr
        | ok ids => simp [readIdColumn, hd, hr, Except.map] at h
      | some v =>
        cases hv : pyInt v with
        | none =>
          simp only [readIdColumn, hd, hv] at h
          cases h
          rfl
        | some n =>
          cases hr : readIdColumn rest with
          | error e2 =>
            simp only [readIdColumn, hd, hv, hr, Except.map] at h
            cases h
            exact ih hr
          | ok ids => simp [readIdColumn, hd, hv, hr, Except.map] at h

lemma read_csv_ids_err (f : CsvFile) (e : Exc)
    (h : read_csv_ids f = Except.error e) :
    e = Exc.emptyDataError ∨ e = Exc.valueError := by
  cases f with
  | nil => simp only [read_csv_ids] at h; cases h; exact Or.inl rfl
  | cons line rest =>
    exact Or.inr (readIdColumn_err _ _ (by simpa [read_csv_ids] using h))

/-! ### C1 -/

/-- C1: the spec claims every record appended to the store satisfies
`is_repo_we_care_about` and that failing entities are never written.  The
code defines the predicate but never calls it: `save_repos_to_file`
appends every entity whose id parses, so a public Python fork — which the
predicate rejects — is appended. -/
theorem c1_filter_never_applied :
    is_repo_we_care_about repoFork = some false ∧
    save_repos_to_file [] [PageItem.entity repoFork]
      = ([Line.header, Line.row (project repoFork)], [], Except.ok ()) :=
  ⟨rfl, rfl⟩

/-! ### C2 -/

/-- C2 counterexample: for a store containing no records (a zero-byte
file), the startup cursor is the integer 0 — not "unset" — and the
post-cycle recomputation is an `EmptyDataError` — not "unset". -/
theorem c2_empty_store_cex :
    startup_last_id ([] : CsvFile) = Except.ok (some 0) ∧
    recompute_cursor ([] : CsvFile) = Except.error Exc.emptyDataError :=
  ⟨rfl, rfl⟩

/-- C2 amended: on a zero-byte store the startup cursor is 0 and the
recomputation after a cycle raises `EmptyDataError`; the cursor is "unset"
(`NotSet`) exactly for a store holding a header row but no data records,
in both the startup and the recomputation paths. -/
theorem c2_empty_store_amended :
    startup_last_id ([] : CsvFile) = Except.ok (some 0) ∧
    recompute_cursor ([] : CsvFile) = Except.error Exc.emptyDataError ∧
    startup_last_id [Line.header] = Except.ok none ∧
    recompute_cursor [Line.header] = Except.ok none :=
  ⟨rfl, rfl, rfl, rfl⟩

/-! ### C3 -/

/-- C3 counterexample: with reset time 0 and current time 6 the computed
backoff duration is -1, and the pause is not a no-op: `time.sleep`
raises `ValueError`, so the cycle raises instead of backing off. -/
theorem c3_negative_sleep_cex :
    backoff_sleep_seconds 0 6 = -1 ∧
    get_repos_with_backoff_step [] [PageItem.rateLimitHit] 0 6
      = CycleOutcome.raised Exc.valueError :=
  ⟨by decide, rfl⟩

/-- C3 amended: the backoff duration equals `reset - now + 5` (with reset
`T` and current time `T - 10` it is 15); a zero duration pauses as a
no-op, but a negative duration makes the pause raise an error rather than
acting as a no-op delay. -/
theorem c3_backoff_duration :
    (∀ reset now : Int, backoff_sleep_seconds reset now = reset - now + 5) ∧
    (∀ t : Int, backoff_sleep_seconds t (t - 10) = 15) ∧
    time_sleep 0 = Except.ok () ∧
    (∀ t : Int, t < 0 → time_sleep t = Except.error Exc.valueError) := by
  refine ⟨fun _ _ => rfl, fun t => ?_, rfl, fun t ht => ?_⟩
  · unfold backoff_sleep_seconds; omega
  · simp [time_sleep, ht]

/-- C3 witness: the amended theorem at reset 100, now 90 and at
duration -3. -/
theorem c3_backoff_duration_witness :
    backoff_sleep_seconds 100 90 = 15 ∧
    time_sleep (-3) = Except.error Exc.valueError :=
  ⟨c3_backoff_duration.2.1 100, c3_backoff_duration.2.2.2 (-3) (by decide)⟩

/-! ### C9 -/

/-- C9: `get_repos_with_backoff` never returns normally — every invocation
either raises an unrecovered error or performs the next resumption cycle;
the outcome is never `finished`. -/
theorem c9_no_natural_termination :
    ∀ (file : CsvFile) (items : List PageItem) (reset now : Int),
      get_repos_with_backoff_step file items reset now ≠
        CycleOutcome.finished := by
  intro file items reset now
  unfold get_repos_with_backoff_step finishCycle
  rcases save_repos_to_file file items with ⟨f, l, r⟩
  have hrr : ∀ (f : CsvFile) (l : List String),
      recomputeAndResume f l ≠ CycleOutcome.finished := by
    intro f l
    unfold recomputeAndResume
    cases read_csv_ids f <;> simp
  cases r with
  | ok u => exact hrr f l
  | error e =>
    cases e with
    | rateLimitExceeded =>
      cases time_sleep (backoff_sleep_seconds reset now) with
      | error e2 => simp
      | ok u => exact hrr f l
    | attributeError => simp
    | valueError => simp
    | emptyDataError => simp

lemma processItems_nil_of : ∀ (items : List PageItem) (file : CsvFile)
    (log : List String), (processItems file log items).1 = [] → file = [] := by
  intro items
  induction items with
  | nil => intro file log h; simpa [processItems] using h
  | cons item rest ih =>
    intro file log h
    cases item with
    | rateLimitHit => simpa [processItems] using h
    | entityErr r e =>
      cases e with
      | rateLimited => simpa [processItems] using h
      | generic hasMsg msg =>
        cases hasMsg with
        | false => exact ih file log (by simpa [processItems] using h)
        | true =>
          cases hn : pyGetattr r "name" with
          | none => simpa [processItems, hn] using h
          | some nv => exact ih file _ (by simpa [processItems, hn] using h)
    | entity r =>
      cases hn : pyGetattr r "name" with
      | none => simpa [processItems, hn] using h
      | some nv =>
        cases hid : (dictGet (project r) "id").bind pyInt with
        | none => exact ih file log (by simpa [processItems, hn, hid] using h)
        | some n =>
          have h2 := ih (appendRow file (project r)) log
            (by simpa [processItems, hn, hid] using h)
          exact absurd h2 (appendRow_ne_nil file (project r))

lemma countHeaders_append (a b : CsvFile) :
    countHeaders (a ++ b) = countHeaders a + countHeaders b := by
  induction a with
  | nil => simp [countHeaders]
  | cons line rest ih =>
    cases line with
    | header => simp [countHeaders, ih]; omega
    | row d => simp [countHeaders, ih]

lemma countHeaders_appendRow (file : CsvFile) (d : List (String × Value)) :
    countHeaders (appendRow file d)
      = countHeaders file + (if file = [] then 1 else 0) := by
  cases file with
  | nil => rfl
  | cons l rest =>
    have h : appendRow (l :: rest) d = (l :: rest) ++ [Line.row d] := by
      simp [appendRow]
    rw [h, countHeaders_append]
    simp [countHeaders]

lemma processItems_headers : ∀ (items : List PageItem) (file : CsvFile)
    (log : List String),
    countHeaders (processItems file log items).1
      = countHeaders file +
        (if file = [] ∧ (processItems file log items).1 ≠ [] then 1 else 0) := by
  intro items
  induction items with
  | nil => intro file log; simp [processItems]
  | cons item rest ih =>
    intro file log
    cases item with
    | rateLimitHit => simp [processItems]
    | entityErr r e =>
      cases e with
      | rateLimited => simp [processItems]
      | generic hasMsg msg =>
        cases hasMsg with
        | false => simpa [processItems] using ih file log
        | true =>
          cases hn : pyGetattr r "name" with
          | none => simp [processItems, hn]
          | some nv => simpa [processItems, hn] using ih file _
    | entity r =>
      cases hn : pyGetattr r "name" with
      | none => simp [processItems, hn]
      | some nv =>
        cases hid : (dictGet (project r) "id").bind pyInt with
        | none => simpa [processItems, hn, hid] using ih file log
        | some n =>
          simp only [processItems, hn, hid]
          have hres := ih (appendRow file (project r)) log
          have hne1 : ¬(appendRow file (project r) = [] ∧
              (processItems (appendRow file (project r)) log rest).1 ≠ []) :=
            fun hh => appendRow_ne_nil file (project r) hh.1
          rw [if_neg hne1, Nat.add_zero, countHeaders_appendRow] at hres
          by_cases hf : file = []
          · have hne2 :
                (processItems (appendRow file (project r)) log rest).1 ≠ [] :=
              fun hnil => appendRow_ne_nil file (project r)
                (processItems_nil_of rest _ log hnil)
            rw [if_pos hf] at hres
            rw [if_pos ⟨hf, hne2⟩]
            exact hres
          · rw [if_neg hf, Nat.add_zero] at hres
            rw [if_neg (fun hh => hf hh.1), Nat.add_zero]
            exact hres

lemma runCycles_nil_of : ∀ (cycles : List (List PageItem)) (file : CsvFile),
    runCycles file cycles = [] → file = [] := by
  intro cycles
  induction cycles with
  | nil => intro file h; exact h
  | cons c cs ih =>
    intro file h
    exact processItems_nil_of c file [] (ih _ h)

/-! ### C4 -/

/-- C4: across any number of append cycles of a run, the header row is
written at most once, and exactly when the store file was empty at the
moment of the first actual append: the run's final header count exceeds
the initial one by 1 precisely when the run started on an empty file and
some record got written, and is unchanged otherwise. -/
theorem c4_header_at_most_once :
    ∀ (file : CsvFile) (cycles : List (List PageItem)),
      countHeaders (runCycles file cycles)
        = countHeaders file +
          (if file = [] ∧ runCycles file cycles ≠ [] then 1 else 0) := by
  intro file cycles
  induction cycles generalizing file with
  | nil => simp [runCycles]
  | cons c cs ih =>
    have h1 := ih (processItems file [] c).1
    have h2 := processItems_headers c file []
    simp only [runCycles]
    by_cases hf : file = []
    · by_cases hf1 : (processItems file [] c).1 = []
      · rw [if_neg (fun hh => hh.2 hf1), Nat.add_zero] at h2
        by_cases hr : runCycles (processItems file [] c).1 cs = []
        · rw [if_neg (fun hh => hh.2 hr), Nat.add_zero] at h1
          rw [if_neg (fun hh => hh.2 hr), Nat.add_zero]
          omega
        · rw [if_pos ⟨hf1, hr⟩] at h1
          rw [if_pos ⟨hf, hr⟩]
          omega
      · rw [if_pos ⟨hf, hf1⟩] at h2
        have hr : runCycles (processItems file [] c).1 cs ≠ [] :=
          fun hh => hf1 (runCycles_nil_of cs _ hh)
        rw [if_neg (fun hh => hf1 hh.1), Nat.add_zero] at h1
        rw [if_pos ⟨hf, hr⟩]
        omega
    · have hf1 : (processItems file [] c).1 ≠ [] :=
        fun hh => hf (processItems_nil_of c file [] hh)
      rw [if_neg (fun hh => hf hh.1), Nat.add_zero] at h2
      rw [if_neg (fun hh => hf1 hh.1), Nat.add_zero] at h1
      rw [if_neg (fun hh => hf hh.1), Nat.add_zero]
      omega

lemma processItems_append_ok (ys : List PageItem) :
    ∀ (xs : List PageItem) (file : CsvFile) (log : List String),
      (processItems file log xs).2.2 = Except.ok () →
      processItems file log (xs ++ ys)
        = processItems (processItems file log xs).1
            (processItems file log xs).2.1 ys := by
  intro xs
  induction xs with
  | nil => intro file log _; simp [processItems]
  | cons item rest ih =>
    intro file log h
    cases item with
    | rateLimitHit => exact absurd h (by simp [processItems])
    | entityErr r e =>
      cases e with
      | rateLimited => exact absurd h (by simp [processItems])
      | generic hasMsg msg =>
        cases hasMsg with
        | false =>
          simpa [processItems] using ih file log (by simpa [processItems] using h)
        | true =>
          cases hn : pyGetattr r "name" with
          | none => exact absurd h (by simp [processItems, hn])
          | some nv =>
            simpa [processItems, hn] using
              ih file _ (by simpa [processItems, hn] using h)
    | entity r =>
      cases hn : pyGetattr r "name" with
      | none => exact absurd h (by simp [processItems, hn])
      | some nv =>
        cases hid : (dictGet (project r) "id").bind pyInt with
        | none =>
          simpa [processItems, hn, hid] using
            ih file log (by simpa [processItems, hn, hid] using h)
        | some n =>
          simpa [processItems, hn, hid] using
            ih (appendRow file (project r)) log
              (by simpa [processItems, hn, hid] using h)

/-! ### C5 -/

/-- C5: a rate-limit signal while iterating abandons the page — the items
after it are never processed, the store and log stay as after the prefix —
and propagates out of `save_repos_to_file` as `RateLimitExceededException`;
`get_repos_with_backoff` never lets that exception escape to its caller,
and when the backoff sleep and the cursor recomputation succeed, the cycle
recovers by resuming with the recomputed cursor. -/
theorem c5_rate_limit_recovery :
    (∀ (file : CsvFile) (log : List String) (pre post : List PageItem),
        (processItems file log pre).2.2 = Except.ok () →
        processItems file log (pre ++ PageItem.rateLimitHit :: post)
          = ((processItems file log pre).1, (processItems file log pre).2.1,
              Except.error Exc.rateLimitExceeded))
    ∧ (∀ (file : CsvFile) (items : List PageItem) (reset now : Int),
        get_repos_with_backoff_step file items reset now
          ≠ CycleOutcome.raised Exc.rateLimitExceeded)
    ∧ (∀ (file : CsvFile) (items : List PageItem) (reset now : Int)
          (ids : List (Option Int)),
        (save_repos_to_file file items).2.2 = Except.error Exc.rateLimitExceeded →
        0 ≤ backoff_sleep_seconds reset now →
        read_csv_ids (save_repos_to_file file items).1 = Except.ok ids →
        get_repos_with_backoff_step file items reset now
          = CycleOutcome.resume (save_repos_to_file file items).1
              (save_repos_to_file file items).2.1 (get_max_id ids)) := by
  refine ⟨?_, ?_, ?_⟩
  · intro file log pre post h
    rw [processItems_append_ok (PageItem.rateLimitHit :: post) pre file log h]
    simp [processItems]
  · intro file items reset now h
    unfold get_repos_with_backoff_step finishCycle at h
    rcases hs : save_repos_to_file file items with ⟨f, l, r⟩
    rw [hs] at h
    cases r with
    | ok u =>
      rcases read_csv_ids_err f _ (recomputeAndResume_raised f l _ h) with h2 | h2 <;>
        simp at h2
    | error e =>
      cases e with
      | rateLimitExceeded =>
        by_cases hb : backoff_sleep_seconds reset now < 0
        · simp [time_sleep, hb] at h
        · simp only [time_sleep, if_neg hb] at h
          rcases read_csv_ids_err f _ (recomputeAndResume_raised f l _ h) with h2 | h2 <;>
            simp at h2
      | attributeError => simp at h
      | valueError => simp at h
      | emptyDataError => simp at h
  · intro file items reset now ids h1 h2 h3
    unfold get_repos_with_backoff_step finishCycle
    rcases hs : save_repos_to_file file items with ⟨f, l, r⟩
    rw [hs] at h1 h3
    cases r with
    | ok u => simp at h1
    | error e =>
      simp at h1 h3
      subst h1
      have hb : ¬backoff_sleep_seconds reset now < 0 := by omega
      simp [time_sleep, hb, recomputeAndResume, h3]

/-- C5 witness: a page that appends one repository, hits the rate limit,
and would have one more entity — the tail is abandoned, the error
propagates, and the cycle resumes with the recomputed cursor. -/
theorem c5_rate_limit_recovery_witness :
    processItems [] []
        ([PageItem.entity repoA] ++ PageItem.rateLimitHit :: [PageItem.entity repoB])
      = ((processItems [] [] [PageItem.entity repoA]).1,
          (processItems [] [] [PageItem.entity repoA]).2.1,
          Except.error Exc.rateLimitExceeded)
    ∧ get_repos_with_backoff_step [] [PageItem.entity repoA, PageItem.rateLimitHit] 7 2
        = CycleOutcome.resume
            (save_repos_to_file [] [PageItem.entity repoA, PageItem.rateLimitHit]).1
            (save_repos_to_file [] [PageItem.entity repoA, PageItem.rateLimitHit]).2.1
            (get_max_id [some 1]) :=
  ⟨c5_rate_limit_recovery.1 [] [] [PageItem.entity repoA] [PageItem.entity repoB] rfl,
   c5_rate_limit_recovery.2.2 [] [PageItem.entity repoA, PageItem.rateLimitHit] 7 2
     [some 1] rfl (by decide) rfl⟩

/-! ### C6 -/

/-- C6 counterexample: a transient per-entity error (a generic
`GithubException` whose dict payload, as PyGithub delivers it, has no
`message` attribute) skips the entity and iteration continues — but
nothing is logged: the final log is empty, against the claim that the
error message is logged. -/
theorem c6_silent_skip_cex :
    save_repos_to_file []
        [PageItem.entityErr repoA
           (GhErr.generic false "Must have push access to view collaborators."),
         PageItem.entity repoB]
      = ([Line.header, Line.row (project repoB)], [], Except.ok ()) :=
  rfl

/-- C6 amended: on a transient per-entity error the entity is skipped and
iteration continues with the next entity; the error message is logged
exactly when the exception's `data` payload exposes a `message` attribute
(`hasattr(e.data, "message")`) — for PyGithub's dict payloads it does not,
so the entity is skipped silently. -/
theorem c6_skip_log_only_with_message_attr :
    ∀ (file : CsvFile) (log : List String) (r : Repo) (hasMsg : Bool)
      (msg : String) (rest : List PageItem) (nv : Value),
      pyGetattr r "name" = some nv →
      processItems file log (PageItem.entityErr r (GhErr.generic hasMsg msg) :: rest)
        = processItems file
            (log ++ (if hasMsg then [errMessage nv msg] else [])) rest := by
  intro file log r hasMsg msg rest nv hn
  cases hasMsg with
  | false => simp [processItems]
  | true => simp [processItems, hn]

/-- C6 witness: the amended theorem at a concrete entity and message. -/
theorem c6_skip_log_witness :
    processItems [] [] [PageItem.entityErr repoA (GhErr.generic true "Forbidden")]
      = processItems []
          ([] ++ (if true then [errMessage (Value.vStr "alpha") "Forbidden"] else []))
          [] :=
  c6_skip_log_only_with_message_attr [] [] repoA true "Forbidden" []
    (Value.vStr "alpha") rfl

/-! ### Projection and id-wellformedness lemmas -/

lemma mem_project (r : Repo) (p : String) (v : Value)
    (h : (p, v) ∈ project r) : pyGetattr r p = some v := by
  rcases List.mem_filterMap.mp h with ⟨q, hq, heq⟩
  cases hg : pyGetattr r q with
  | none => rw [hg] at heq; exact absurd heq (by simp)
  | some w =>
    rw [hg] at heq
    simp only [Option.map_some', Option.some.injEq, Prod.mk.injEq] at heq
    rw [← heq.1, hg, heq.2]

lemma dictGet_project_none (r : Repo) (p : String)
    (h : pyGetattr r p = none) : dictGet (project r) p = none := by
  cases hf : (project r).find? (fun kv => kv.1 == p) with
  | none => simp [dictGet, hf]
  | some kv =>
    exfalso
    have hmem : kv ∈ project r := List.mem_of_find?_eq_some hf
    have hkey : kv.1 = p := by simpa using List.find?_some hf
    have hv := mem_project r kv.1 kv.2 hmem
    rw [hkey, h] at hv
    exact Option.noConfusion hv

lemma processItems_preserves_rowIdOk : ∀ (items : List PageItem)
    (file : CsvFile) (log : List String),
    (∀ l ∈ file, rowIdOkB l = true) →
    ∀ l ∈ (processItems file log items).1, rowIdOkB l = true := by
  intro items
  induction items with
  | nil => intro file log hf; simpa [processItems] using hf
  | cons item rest ih =>
    intro file log hf
    cases item with
    | rateLimitHit => simpa [processItems] using hf
    | entityErr r e =>
      cases e with
      | rateLimited => simpa [processItems] using hf
      | generic hasMsg msg =>
        cases hasMsg with
        | false => simpa [processItems] using ih file log hf
        | true =>
          cases hn : pyGetattr r "name" with
          | none => simpa [processItems, hn] using hf
          | some nv => simpa [processItems, hn] using ih file _ hf
    | entity r =>
      cases hn : pyGetattr r "name" with
      | none => simpa [processItems, hn] using hf
      | some nv =>
        cases hid : (dictGet (project r) "id").bind pyInt with
        | none => simpa [processItems, hn, hid] using ih file log hf
        | some n =>
          have hf2 : ∀ l ∈ appendRow file (project r), rowIdOkB l = true := by
            intro l hl
            rw [appendRow] at hl
            rcases List.mem_append.mp hl with h1 | h1
            · rcases List.mem_append.mp h1 with h2 | h2
              · exact hf l h2
              · by_cases he : file.isEmpty
                · rw [if_pos he] at h2
                  simp at h2
                  rw [h2]
                  rfl
                · rw [if_neg he] at h2
                  simp at h2
            · simp at h1
              rw [h1]
              simp [rowIdOkB, hid]
          simpa [processItems, hn, hid] using
            ih (appendRow file (project r)) log hf2

/-! ### C7 -/

/-- C7: a record whose identifier field is absent or does not parse as an
integer is never appended (the entity is skipped and processing moves on),
and every line the append routine ever adds to a store of well-formed
lines has a present, integer-parseable identifier, so the checkpoint
computation over the store never sees such a record. -/
theorem c7_unparseable_id_never_appended :
    (∀ (file : CsvFile) (log : List String) (r : Repo)
        (rest : List PageItem) (nv : Value),
        pyGetattr r "name" = some nv →
        (dictGet (project r) "id").bind pyInt = none →
        processItems file log (PageItem.entity r :: rest)
          = processItems file log rest)
    ∧ (∀ (file : CsvFile) (log : List String) (items : List PageItem),
        (∀ l ∈ file, rowIdOkB l = true) →
        ∀ l ∈ (processItems file log items).1, rowIdOkB l = true) := by
  constructor
  · intro file log r rest nv hn hid
    simp [processItems, hn, hid]
  · exact fun file log items hf => processItems_preserves_rowIdOk items file log hf

/-- C7 witness: an entity whose id attribute is the non-numeric string
"notanumber" is skipped, and a row actually appended is id-well-formed. -/
theorem c7_unparseable_id_witness :
    processItems [] [] [PageItem.entity repoBadId] = processItems [] [] []
    ∧ rowIdOkB (Line.row (project repoA)) = true :=
  ⟨c7_unparseable_id_never_appended.1 [] [] repoBadId [] (Value.vStr "bad") rfl rfl,
   c7_unparseable_id_never_appended.2 [] [] [PageItem.entity repoA]
     (by simp) (Line.row (project repoA)) (by decide)⟩

/-! ### C10 -/

/-- C10: the projection copies only attributes the entity actually has
(every key-value pair of `repo_dict` is a real attribute of the entity);
an entity with no id attribute at all is skipped without raising — the
`KeyError` from `repo_dict["id"]` is swallowed by the bare `except` and
processing continues; and every line appended to a store of well-formed
lines has a present, integer-parseable identifier. -/
theorem c10_projection_and_id_safety :
    (∀ (r : Repo) (p : String) (v : Value),
        (p, v) ∈ project r → pyGetattr r p = some v)
    ∧ (∀ (file : CsvFile) (log : List String) (r : Repo)
          (rest : List PageItem) (nv : Value),
        pyGetattr r "name" = some nv →
        pyGetattr r "id" = none →
        processItems file log (PageItem.entity r :: rest)
          = processItems file log rest)
    ∧ (∀ (file : CsvFile) (log : List String) (items : List PageItem),
        (∀ l ∈ file, rowIdOkB l = true) →
        ∀ l ∈ (processItems file log items).1, rowIdOkB l = true) := by
  refine ⟨fun r p v h => mem_project r p v h, ?_, ?_⟩
  · intro file log r rest nv hn hid
    have h2 : dictGet (project r) "id" = none := dictGet_project_none r "id" hid
    simp [processItems, hn, h2]
  · exact fun file log items hf => processItems_preserves_rowIdOk items file log hf

/-- C10 witness: a concrete projected pair comes from a real attribute,
and an entity with no id attribute is skipped without an error. -/
theorem c10_projection_witness :
    pyGetattr repoA "language" = some (Value.vStr "C")
    ∧ processItems [] [] [PageItem.entity repoNoId] = processItems [] [] [] :=
  ⟨c10_projection_and_id_safety.1 repoA "language" (Value.vStr "C") (by decide),
   c10_projection_and_id_safety.2.1 [] [] repoNoId [] (Value.vStr "noid") rfl rfl⟩

/-! ### C8 -/

lemma le_foldl_max (x : Int) (xs : List Int) : x ≤ xs.foldl max x := by
  induction xs generalizing x with
  | nil => exact le_refl x
  | cons y ys ih => exact le_trans (le_max_left x y) (ih (max x y))

lemma foldl_max_mem (x : Int) (xs : List Int) :
    xs.foldl max x = x ∨ xs.foldl max x ∈ xs := by
  induction xs generalizing x with
  | nil => exact Or.inl rfl
  | cons y ys ih =>
    rcases ih (max x y) with h | h
    · rcases max_choice x y with hm | hm
      · exact Or.inl (by rw [List.foldl_cons, h, hm])
      · refine Or.inr ?_
        rw [List.foldl_cons, h, hm]
        exact List.mem_cons_self y ys
    · exact Or.inr (List.mem_cons_of_mem y h)

lemma foldl_max_ge (x : Int) (xs : List Int) :
    ∀ a ∈ xs, a ≤ xs.foldl max x := by
  induction xs generalizing x with
  | nil => intro a ha; exact absurd ha (List.not_mem_nil a)
  | cons y ys ih =>
    intro a ha
    rw [List.foldl_cons]
    rcases List.mem_cons.mp ha with h | h
    · subst h
      exact le_trans (le_max_right x a) (le_foldl_max (max x a) ys)
    · exact ih (max x y) a h

lemma readIdColumn_storeOf (ids : List Int) :
    readIdColumn (ids.map (fun n => Line.row [("id", Value.vInt n)]))
      = Except.ok (ids.map some) := by
  induction ids with
  | nil => rfl
  | cons n ns ih =>
    have h : readIdColumn
          (List.map (fun n => Line.row [("id", Value.vInt n)]) (n :: ns))
        = Except.map (fun l => some n :: l)
            (readIdColumn (List.map (fun n => Line.row [("id", Value.vInt n)]) ns)) :=
      rfl
    rw [h, ih]
    rfl

lemma filterMap_id_map_some (ids : List Int) :
    (ids.map some).filterMap id = ids := by
  induction ids with
  | nil => rfl
  | cons n ns ih => simp [ih]

/-- C8: for a non-empty store, the recomputed cursor is the maximum
identifier among the records: it is one of the stored identifiers and
bounds all of them; in particular a store holding identifiers 5, 12, 3
yields cursor 12. -/
theorem c8_cursor_is_max :
    (∀ ids : List Int, ids ≠ [] →
      ∃ m, recompute_cursor (storeOf ids) = Except.ok (some m) ∧
        m ∈ ids ∧ ∀ x ∈ ids, x ≤ m)
    ∧ recompute_cursor (storeOf [5, 12, 3]) = Except.ok (some 12) := by
  constructor
  · intro ids hne
    have hread : read_csv_ids (storeOf ids) = Except.ok (ids.map some) := by
      have h0 : read_csv_ids (storeOf ids)
          = readIdColumn (ids.map (fun n => Line.row [("id", Value.vInt n)])) := rfl
      rw [h0, readIdColumn_storeOf]
    cases ids with
    | nil => exact absurd rfl hne
    | cons x xs =>
      refine ⟨xs.foldl max x, ?_, ?_, ?_⟩
      · unfold recompute_cursor
        rw [hread]
        have h1 : ((x :: xs).map some).filterMap id = x :: xs :=
          filterMap_id_map_some (x :: xs)
        simp [Except.map, get_max_id, h1]
      · rcases foldl_max_mem x xs with h | h
        · rw [h]; exact List.mem_cons_self x xs
        · exact List.mem_cons_of_mem x h
      · intro a ha
        rcases List.mem_cons.mp ha with h | h
        · subst h; exact le_foldl_max a xs
        · exact foldl_max_ge x xs a h
  · rfl

/-- C8 witness: the theorem at the store holding identifiers 5, 12, 3. -/
theorem c8_cursor_is_max_witness :
    ∃ m, recompute_cursor (storeOf [5, 12, 3]) = Except.ok (some m) ∧
      m ∈ [5, 12, 3] ∧ ∀ x ∈ [5, 12, 3], x ≤ m :=
  c8_cursor_is_max.1 [5, 12, 3] (by decide)
